import Mathlib

/-!
Shallow embedding of the restate-for-dummies repository: a type-inference
convenience layer over the Restate durable-execution SDK.  The runtime
(Restate SDK) is external; it is modelled only through the fixed entry
points this layer calls (register handler, get/set/clear state, run a
durable step, obtain a client).  Pure functions of the source become Lean
functions; JavaScript objects become association lists or structures;
promises become `Except` values (ok = fulfilled, error = rejected).
-/

/-- Model of a serialization codec value (a `Serde` object).  Codec values
are compared by identity in the source (they are plain object references);
the model tags them: `superjsonBuiltin` is the module constant
`superjsonserde` of src/primitives/serde.ts, `custom n` is any other codec
object supplied by the user. -/
inductive SerdeImpl where
  | superjsonBuiltin : SerdeImpl
  | custom : Nat → SerdeImpl
deriving DecidableEq, Repr

/-- Model of the source type `SerdeOption<T> = "json" | "superjson" | Serde<T>`. -/
inductive SerdeOption where
  | jsonStr : SerdeOption
  | superjsonStr : SerdeOption
  | impl : SerdeImpl → SerdeOption
deriving DecidableEq, Repr

/-- Model of `BaseOpts<T> = { serde?: SerdeOption<T> }` from src/primitives/utils.ts. -/
structure BaseOptsV where
  serde : Option SerdeOption
deriving DecidableEq, Repr

/-- Model of a JavaScript value as it flows through this layer: the plain
JSON shapes plus the rich shapes the serde documentation talks about
(Date, BigInt, undefined).  A Date is its millisecond timestamp; a BigInt
is its integer value. -/
inductive JsValue where
  | vnull : JsValue
  | vbool : Bool → JsValue
  | vnum : Int → JsValue
  | vstr : String → JsValue
  | varr : List JsValue → JsValue
  | vobj : List (String × JsValue) → JsValue
  | vdate : Int → JsValue
  | vbigint : Int → JsValue
  | vundef : JsValue
deriving Repr

/-- Stands for `Date.prototype.toISOString` of the JavaScript runtime.
Only the fact that it produces a string is used by any theorem. -/
def dateToISOString (ms : Int) : String :=
  "1970-01-01T00:00:00.000Z+" ++ toString ms

mutual

/-- Model of `JSON.stringify` followed by `JSON.parse`, i.e. the plain-JSON
projection of a value, as performed by `SuperJsonSerde.serialize` (which is
`new TextEncoder().encode(JSON.stringify(value))`; `TextEncoder` composes
with `TextDecoder` to the identity on strings, so the wire string is
abstracted to the plain value it parses back to):
a Date is replaced by its ISO string (via its `toJSON`), a BigInt anywhere
makes `JSON.stringify` throw a `TypeError`, an `undefined` array element
becomes `null`, an `undefined` object field is dropped, and a top-level
`undefined` makes `JSON.stringify` return `undefined` (signalled here as
`ok none`). -/
def jsonStringifyParse : JsValue → Except String (Option JsValue)
  | JsValue.vnull => Except.ok (some JsValue.vnull)
  | JsValue.vbool b => Except.ok (some (JsValue.vbool b))
  | JsValue.vnum n => Except.ok (some (JsValue.vnum n))
  | JsValue.vstr s => Except.ok (some (JsValue.vstr s))
  | JsValue.vdate ms => Except.ok (some (JsValue.vstr (dateToISOString ms)))
  | JsValue.vbigint _ => Except.error "TypeError: Do not know how to serialize a BigInt"
  | JsValue.vundef => Except.ok none
  | JsValue.varr xs => do
      let es ← jsonStringifyParseList xs
      pure (some (JsValue.varr es))
  | JsValue.vobj fs => do
      let gs ← jsonStringifyParseFields fs
      pure (some (JsValue.vobj gs))

/-- Array elements: `undefined` (and anything whose `toJSON`/stringify gives
undefined) serializes as `null` inside an array. -/
def jsonStringifyParseList : List JsValue → Except String (List JsValue)
  | [] => Except.ok []
  | x :: xs => do
      let hd ← jsonStringifyParse x
      let tl ← jsonStringifyParseList xs
      pure ((hd.getD JsValue.vnull) :: tl)

/-- Object fields: a field whose value serializes to `undefined` is dropped. -/
def jsonStringifyParseFields :
    List (String × JsValue) → Except String (List (String × JsValue))
  | [] => Except.ok []
  | (k, x) :: xs => do
      let hd ← jsonStringifyParse x
      let tl ← jsonStringifyParseFields xs
      match hd with
      | none => pure tl
      | some v => pure ((k, v) :: tl)

end

/-- Model of `deserialize(serialize(v))` for `SuperJsonSerde` of
src/primitives/serde.ts: `serialize` is `JSON.stringify` plus text
encoding, `deserialize` is text decoding plus `JSON.parse`.  When
`JSON.stringify` returns `undefined`, `TextEncoder.encode` coerces it to
the string "undefined", which `JSON.parse` rejects with a `SyntaxError`. -/
def superJsonRoundTrip (v : JsValue) : Except String JsValue :=
  match jsonStringifyParse v with
  | Except.error e => Except.error e
  | Except.ok none => Except.error "SyntaxError: JSON.parse on the text undefined"
  | Except.ok (some p) => Except.ok p

/-- Model of `resolveSerde` from src/primitives/utils.ts: no opts or no
`serde` member, or the string "superjson", resolve to the module constant
`superjsonserde`; the string "json" resolves to `undefined` (the runtime
default); a codec object is returned as-is. -/
def resolveSerde : Option BaseOptsV → Option SerdeImpl
  | none => some SerdeImpl.superjsonBuiltin
  | some o =>
    match o.serde with
    | none => some SerdeImpl.superjsonBuiltin
    | some SerdeOption.superjsonStr => some SerdeImpl.superjsonBuiltin
    | some SerdeOption.jsonStr => none
    | some (SerdeOption.impl s) => some s

/-! ## The raw runtime context and its state primitives

The Restate runtime owns handler state.  A raw context is modelled by the
key/value store the runtime exposes through `ctx.get` / `ctx.set` /
`ctx.clear`; values are stored at the `JsValue` level (serialization to
bytes and back through the registered codec is the runtime's business and
is modelled by the codec round-trip separately). -/

/-- The raw runtime context (the runtime's `ObjectContext` /
`WorkflowContext` / `WorkflowSharedContext` state view). -/
structure RawCtxState where
  state : List (String × JsValue)
deriving Repr

/-- Replace the binding of `k` (or add it): the runtime's `ctx.set`. -/
def setEntry (k : String) (v : JsValue) : List (String × JsValue) → List (String × JsValue)
  | [] => [(k, v)]
  | (k₁, v₁) :: t => if k₁ = k then (k, v) :: t else (k₁, v₁) :: setEntry k v t

/-- The runtime's `ctx.get(key, serde)`: `null` when the key is absent. -/
def ctxGet (c : RawCtxState) (k : String) : Option JsValue :=
  c.state.lookup k

/-- The runtime's `ctx.set(key, value, serde)`. -/
def ctxSet (c : RawCtxState) (k : String) (v : JsValue) : RawCtxState :=
  ⟨setEntry k v c.state⟩

/-- The runtime's `ctx.clear(key)`. -/
def ctxClear (c : RawCtxState) (k : String) : RawCtxState :=
  ⟨c.state.filter (fun p => p.1 ≠ k)⟩

/-- The action argument of a durable step: a thunk returning a promise. -/
def RunAction : Type := Unit → Except JsValue JsValue

/-- What the runtime's durable-step primitive `ctx.run(name, action, opts)`
receives from this layer: the step name, the action, and the `serde` member
of the options object the layer builds (`none` models `undefined`, i.e. the
runtime default codec).  The remaining `RunOptions` retry fields are
forwarded through an object spread and carry no logic of this layer. -/
structure RunCallRecord where
  name : String
  action : RunAction
  serde : Option SerdeImpl

/-- Model of `run` from src/primitives/utils.ts (the 4-parameter draft):
`ctx.run(name, action, { ...opts, serde: resolveSerde(opts) })`. -/
def runCall (name : String) (action : RunAction) (opts : Option BaseOptsV) : RunCallRecord :=
  { name := name, action := action, serde := resolveSerde opts }

/-! ## Clients built inside a handler (client-wrapper.ts)

`createServiceClient(ctx, service, serde)` and friends ask the raw context
for a raw client aimed at a target definition and wrap it with the codec
injecting proxy.  What matters to the claims is which target, key and
codec the wrapper closes over; the proxy behaviour itself is modelled
separately with `proxyGet` below. -/

/-- Which client-construction method of the raw context was used. -/
inductive TargetKind where
  | serviceCall | serviceSendK | objectCall | objectSendK | workflowCall | workflowSendK
deriving DecidableEq, Repr

/-- A wrapped in-context client: the construction record of
src/primitives/client-wrapper.ts. -/
structure InCtxClientRecord where
  kind : TargetKind
  target : JsValue
  key : Option String
  serde : SerdeImpl
deriving Repr

/-- `createServiceClient(ctx, service, serde)` of client-wrapper.ts. -/
def createServiceClientM (service : JsValue) (serde : SerdeImpl) : InCtxClientRecord :=
  { kind := TargetKind.serviceCall, target := service, key := none, serde := serde }

/-- `createServiceSendClient(ctx, service, serde)` of client-wrapper.ts. -/
def createServiceSendClientM (service : JsValue) (serde : SerdeImpl) : InCtxClientRecord :=
  { kind := TargetKind.serviceSendK, target := service, key := none, serde := serde }

/-- `createObjectClient(ctx, object, key, serde)` of client-wrapper.ts. -/
def createObjectClientM (object : JsValue) (key : String) (serde : SerdeImpl) : InCtxClientRecord :=
  { kind := TargetKind.objectCall, target := object, key := some key, serde := serde }

/-- `createObjectSendClient(ctx, object, key, serde)` of client-wrapper.ts. -/
def createObjectSendClientM (object : JsValue) (key : String) (serde : SerdeImpl) : InCtxClientRecord :=
  { kind := TargetKind.objectSendK, target := object, key := some key, serde := serde }

/-- `createWorkflowClient(ctx, workflow, key, serde)` of client-wrapper.ts. -/
def createWorkflowClientM (workflow : JsValue) (key : String) (serde : SerdeImpl) : InCtxClientRecord :=
  { kind := TargetKind.workflowCall, target := workflow, key := some key, serde := serde }

/-- `createWorkflowSendClient(ctx, workflow, key, serde)` of client-wrapper.ts. -/
def createWorkflowSendClientM (workflow : JsValue) (key : String) (serde : SerdeImpl) : InCtxClientRecord :=
  { kind := TargetKind.workflowSendK, target := workflow, key := some key, serde := serde }

/-! ## Built contexts (context builders)

A Built Context is a JavaScript object literal; it is modelled as an
association list from member name to capability, mirroring the literal of
the source field for field and in source order.  Capabilities close over
the raw context exactly as the arrow functions of the source do. -/

/-- One member of a Built Context. -/
inductive Capability where
  | rawCtx : RawCtxState → Capability
  | getSt : (String → Option BaseOptsV → Option JsValue) → Capability
  | setSt : (String → JsValue → Option BaseOptsV → RawCtxState) → Capability
  | clearSt : (String → RawCtxState) → Capability
  | runSt : (String → RunAction → Option BaseOptsV → RunCallRecord) → Capability
  | client : (JsValue → InCtxClientRecord) → Capability
  | clientKeyed : (JsValue → String → InCtxClientRecord) → Capability

/-- A Built Context: member name to capability, in source literal order. -/
def BuiltContext : Type := List (String × Capability)

/-- The Built Context of a service handler, from the wrapped handler body of
`createRestateService` (src/primitives/typed-service.ts, serde-value draft):
`{ ctx, runStep, service, serviceSend, object, objectSend, workflow,
workflowSend }`, where `runStep` delegates to `rawRun(ctx, name, action,
opts)` and each client member delegates to the client-wrapper factory with
the configured `serde`. -/
def mkServiceHandlerContext (c : RawCtxState) (serde : SerdeImpl) : BuiltContext :=
  [ ("ctx", Capability.rawCtx c)
  , ("runStep", Capability.runSt (fun name action opts => runCall name action opts))
  , ("service", Capability.client (fun service => createServiceClientM service serde))
  , ("serviceSend", Capability.client (fun service => createServiceSendClientM service serde))
  , ("object", Capability.clientKeyed (fun object key => createObjectClientM object key serde))
  , ("objectSend", Capability.clientKeyed (fun object key => createObjectSendClientM object key serde))
  , ("workflow", Capability.clientKeyed (fun workflow key => createWorkflowClientM workflow key serde))
  , ("workflowSend", Capability.clientKeyed (fun workflow key => createWorkflowSendClientM workflow key serde)) ]

/-- Model of the object-handler `runStep` of src/primitives/typed-object.ts
(lines 83-84): the source calls `rawRun(ctx, name, action, new SerdeClass(),
opts)`, but the `run` it imports (src/primitives/utils.ts) takes only
`(ctx, name, action, opts)`.  Under JavaScript call semantics the fresh
codec instance lands in the `opts` parameter and the real `opts` argument
is dropped; a codec object has no `serde` member, so `resolveSerde` falls
back to the built-in `superjsonserde` whatever the configured codec was. -/
def objectRunStep (cfg : SerdeImpl) (name : String) (action : RunAction)
    (_opts : Option BaseOptsV) : RunCallRecord :=
  let _ := cfg
  { name := name, action := action, serde := some SerdeImpl.superjsonBuiltin }

/-- The Built Context of a virtual-object handler, from the wrapped handler
body of `typedObject` (src/primitives/typed-object.ts lines 74-103):
`{ clearState, ctx, getState, runStep, setState, service, serviceSend,
object, objectSend, workflow, workflowSend }`.  `getState` delegates to the
runtime get, `setState` to `rawSet` (i.e. `ctx.set`), `clearState` to
`ctx.clear`, and each client member to the client-wrapper factory with the
configured `serde`. -/
def mkObjectHandlerContext (c : RawCtxState) (serde : SerdeImpl) : BuiltContext :=
  [ ("clearState", Capability.clearSt (fun key => ctxClear c key))
  , ("ctx", Capability.rawCtx c)
  , ("getState", Capability.getSt (fun key _opts => ctxGet c key))
  , ("runStep", Capability.runSt (fun name action opts => objectRunStep serde name action opts))
  , ("setState", Capability.setSt (fun key value _opts => ctxSet c key value))
  , ("service", Capability.client (fun service => createServiceClientM service serde))
  , ("serviceSend", Capability.client (fun service => createServiceSendClientM service serde))
  , ("object", Capability.clientKeyed (fun object key => createObjectClientM object key serde))
  , ("objectSend", Capability.clientKeyed (fun object key => createObjectSendClientM object key serde))
  , ("workflow", Capability.clientKeyed (fun workflow key => createWorkflowClientM workflow key serde))
  , ("workflowSend", Capability.clientKeyed (fun workflow key => createWorkflowSendClientM workflow key serde)) ]

/-- The Built Context of the workflow `run` handler, from the wrapped run
handler body of `createRestateWorkflow` (src/primitives/typed-workflow.ts
lines 102-160): `{ clearState, ctx, getState, setState, runStep, service,
serviceSend, object, objectSend, workflow }` (no `workflowSend`). -/
def mkWorkflowRunContext (c : RawCtxState) (serde : SerdeImpl) : BuiltContext :=
  [ ("clearState", Capability.clearSt (fun key => ctxClear c key))
  , ("ctx", Capability.rawCtx c)
  , ("getState", Capability.getSt (fun key _opts => ctxGet c key))
  , ("setState", Capability.setSt (fun key value _opts => ctxSet c key value))
  , ("runStep", Capability.runSt (fun name action opts => runCall name action opts))
  , ("service", Capability.client (fun service => createServiceClientM service serde))
  , ("serviceSend", Capability.client (fun service => createServiceSendClientM service serde))
  , ("object", Capability.clientKeyed (fun object key => createObjectClientM object key serde))
  , ("objectSend", Capability.clientKeyed (fun object key => createObjectSendClientM object key serde))
  , ("workflow", Capability.clientKeyed (fun workflow key => createWorkflowClientM workflow key serde)) ]

/-- The Built Context of a workflow shared (non-run) handler, from the
wrapped shared handler body of `createRestateWorkflow`
(src/primitives/typed-workflow.ts lines 180-231): `{ ctx, getState,
runStep, service, serviceSend, object, objectSend, workflow }` - no
`setState` and no `clearState` member at all. -/
def mkWorkflowSharedContext (c : RawCtxState) (serde : SerdeImpl) : BuiltContext :=
  [ ("ctx", Capability.rawCtx c)
  , ("getState", Capability.getSt (fun key _opts => ctxGet c key))
  , ("runStep", Capability.runSt (fun name action opts => runCall name action opts))
  , ("service", Capability.client (fun service => createServiceClientM service serde))
  , ("serviceSend", Capability.client (fun service => createServiceSendClientM service serde))
  , ("object", Capability.clientKeyed (fun object key => createObjectClientM object key serde))
  , ("objectSend", Capability.clientKeyed (fun object key => createObjectSendClientM object key serde))
  , ("workflow", Capability.clientKeyed (fun workflow key => createWorkflowClientM workflow key serde)) ]

/-! ## Handler registration adapters

A declared handler takes a Built Context and the domain arguments and
returns a promise; the adapters wrap it into the shape the runtime
registers: a function of the raw context and the same arguments. -/

/-- A declared handler body. -/
def DeclaredHandler : Type := BuiltContext → List JsValue → Except JsValue JsValue

/-- A wrapped handler as produced by `restate.handlers.handler` /
`restate.handlers.object.exclusive` with its input/output codec pair. -/
structure RegisteredHandler where
  input : SerdeImpl
  output : SerdeImpl
  fn : RawCtxState → List JsValue → Except JsValue JsValue

/-- A service/object definition as passed to `restate.service` /
`restate.object`: a name and the wrapped handler map. -/
structure DefinitionRecord where
  name : String
  handlers : List (String × RegisteredHandler)

/-- Model of `createRestateService` (src/primitives/typed-service.ts,
serde-value draft, lines 129-182): for each declared handler the adapter
registers, under the same key, a wrapped function that on every invocation
builds a fresh service context from the raw context and the configured
codec and calls the declared handler with it and the arguments; input and
output codec are the configured codec for every handler. -/
def createRestateServiceM (name : String) (handlers : List (String × DeclaredHandler))
    (serde : SerdeImpl) : DefinitionRecord :=
  { name := name
  , handlers := handlers.map (fun p =>
      (p.1,
       { input := serde
       , output := serde
       , fn := fun rawCtx args => p.2 (mkServiceHandlerContext rawCtx serde) args })) }

/-- Model of `typedObject` (src/primitives/typed-object.ts lines 43-114):
identical adapter shape, using the object context builder and fresh
`SerdeClass` instances (equal, as values, to the configured codec) as the
input/output codec of every handler. -/
def typedObjectM (name : String) (handlers : List (String × DeclaredHandler))
    (serde : SerdeImpl) : DefinitionRecord :=
  { name := name
  , handlers := handlers.map (fun p =>
      (p.1,
       { input := serde
       , output := serde
       , fn := fun rawCtx args => p.2 (mkObjectHandlerContext rawCtx serde) args })) }

/-- The runtime handler kind a workflow entry is registered through:
`restate.handlers.workflow.workflow` or `restate.handlers.workflow.shared`. -/
inductive WfHandlerKind where
  | workflowKind | sharedKind
deriving DecidableEq, Repr

/-- A wrapped workflow handler with its registration kind. -/
structure RegisteredWfHandler where
  kind : WfHandlerKind
  input : SerdeImpl
  output : SerdeImpl
  fn : RawCtxState → List JsValue → Except JsValue JsValue

/-- A workflow definition as passed to `restate.workflow`. -/
structure WfDefinitionRecord where
  name : String
  handlers : List (String × RegisteredWfHandler)

/-- The input handler map of `createRestateWorkflow` after the destructuring
`const { run: runHandler, ...sharedHandlers } = inputHandlers`: the
TypeScript constraint requires a `run` key, and the object rest pattern
splits it from the remaining (non-run) keys. -/
structure WorkflowInput where
  run : DeclaredHandler
  shared : List (String × DeclaredHandler)

/-- Model of `createRestateWorkflow` (src/primitives/typed-workflow.ts
lines 61-254): the `run` handler is wrapped with the read/write run context
and registered through the workflow kind; every other handler is wrapped
with the read-only shared context and registered through the shared kind;
the final handler map is `{ run: transformedRunHandler,
...transformedSharedHandlers }`. -/
def createRestateWorkflowM (name : String) (input : WorkflowInput)
    (serde : SerdeImpl) : WfDefinitionRecord :=
  let transformedRunHandler : RegisteredWfHandler :=
    { kind := WfHandlerKind.workflowKind
    , input := serde
    , output := serde
    , fn := fun rawCtx args => input.run (mkWorkflowRunContext rawCtx serde) args }
  let transformedSharedHandlers : List (String × RegisteredWfHandler) :=
    input.shared.map (fun p =>
      (p.1,
       { kind := WfHandlerKind.sharedKind
       , input := serde
       , output := serde
       , fn := fun rawCtx args => p.2 (mkWorkflowSharedContext rawCtx serde) args }))
  { name := name
  , handlers := ("run", transformedRunHandler) :: transformedSharedHandlers }

/-! ## The static type transformation (type-utils.ts and types.ts)

Handler signatures are modelled as data: a context type, the list of
domain argument types and the return type.  The two type-level mappings of
src/primitives/type-utils.ts become functions over that data. -/

/-- A TypeScript type expression, as far as the claims need it. -/
inductive Ty where
  | anyTy : Ty
  | strTy : Ty
  | numTy : Ty
  | boolTy : Ty
  | promise : Ty → Ty
  | ctxTy : String → Ty
deriving DecidableEq, Repr

/-- The shape of a declared handler type `(ctx, ...args) => ret`. -/
structure HandlerSig where
  ctx : Ty
  args : List Ty
  ret : Ty
deriving DecidableEq, Repr

/-- The shape of a client method type `(...args) => ret`. -/
structure ClientMethodSig where
  args : List Ty
  ret : Ty
deriving DecidableEq, Repr

/-- `TransformHandler<TFrom, TTo, THandler>` of src/primitives/type-utils.ts:
replace only the context parameter type, keep arguments and return type. -/
def transformHandlerTy (toCtx : Ty) (h : HandlerSig) : HandlerSig :=
  { h with ctx := toCtx }

/-- `TransformHandlers` of type-utils.ts, mapped over a handler map. -/
def transformHandlersTy (toCtx : Ty) (H : List (String × HandlerSig)) :
    List (String × HandlerSig) :=
  H.map (fun p => (p.1, transformHandlerTy toCtx p.2))

/-- `ExtractHandlerSignature<T>` of type-utils.ts: drop the context
parameter entirely. -/
def extractHandlerSignature (h : HandlerSig) : ClientMethodSig :=
  { args := h.args, ret := h.ret }

/-- `HandlersToClient<THandlers>` of type-utils.ts. -/
def handlersToClientTy (H : List (String × HandlerSig)) :
    List (String × ClientMethodSig) :=
  H.map (fun p => (p.1, extractHandlerSignature p.2))

/-- The shape of a Definition type with its handler-map type parameter, as
matched on by `ClientType` (src/primitives/types.ts lines 134-142). -/
inductive DefinitionSig where
  | serviceDef : String → List (String × HandlerSig) → DefinitionSig
  | objectDef : String → List (String × HandlerSig) → DefinitionSig
  | workflowDef : String → List (String × HandlerSig) → DefinitionSig
deriving DecidableEq, Repr

/-- The signature of the extra `getStatus(): Promise<any>` member that the
workflow branch of `ClientType` adds. -/
def getStatusSig : ClientMethodSig :=
  { args := [], ret := Ty.promise Ty.anyTy }

/-- `ClientType<T>` of src/primitives/types.ts (lines 134-142):
`HandlersToClient<H>` for a service or virtual-object definition, and
`HandlersToClient<H> & { getStatus(): Promise<any> }` for a workflow
definition. -/
def clientTypeTy : DefinitionSig → List (String × ClientMethodSig)
  | DefinitionSig.serviceDef _ H => handlersToClientTy H
  | DefinitionSig.objectDef _ H => handlersToClientTy H
  | DefinitionSig.workflowDef _ H => handlersToClientTy H ++ [("getStatus", getStatusSig)]

/-- The type-level output of the service adapter: `ServiceDefinition<string,
TransformHandlers<THandlers>>` with the raw `Context` as target context. -/
def serviceAdapterSig (name : String) (H : List (String × HandlerSig)) : DefinitionSig :=
  DefinitionSig.serviceDef name (transformHandlersTy (Ty.ctxTy "Context") H)

/-- The type-level output of the object adapter: `VirtualObjectDefinition<
string, TransformHandlers<TState, THandlers>>` with `ObjectContext`. -/
def objectAdapterSig (name : String) (H : List (String × HandlerSig)) : DefinitionSig :=
  DefinitionSig.objectDef name (transformHandlersTy (Ty.ctxTy "ObjectContext") H)

/-- The type-level output of the workflow adapter: `WorkflowDefinition<
string, CombineHandlers<TransformRunHandler<...>, TransformSharedHandlers<
...>>>`: the `run` entry is transformed to take `WorkflowContext`, every
other entry to take `WorkflowSharedContext`. -/
def workflowAdapterSig (name : String) (H : List (String × HandlerSig)) : DefinitionSig :=
  DefinitionSig.workflowDef name
    (H.map (fun p =>
      (p.1,
       transformHandlerTy
         (if p.1 = "run" then Ty.ctxTy "WorkflowContext" else Ty.ctxTy "WorkflowSharedContext")
         p.2)))

/-! ## The codec-injecting client proxy (client-proxy.ts)

Method arguments are JavaScript values; a trailing argument may be a
runtime-native options value.  The runtime distinguishes its two rpc
modules (`restate-sdk` for in-handler clients, `restate-sdk-clients` for
ingress clients) by `instanceof` checks, so an options value carries the
module that constructed it. -/

/-- Which rpc module constructed an options value. -/
inductive RpcModule where
  | sdk | ingress
deriving DecidableEq, Repr

/-- Whether an argument handler works with call options or send options. -/
inductive OptsKind where
  | callK | sendK
deriving DecidableEq, Repr

/-- A method-call argument as seen by the proxy: a domain value, the empty
object the wrapper inserts, a call-options value (`rpc.opts({input,
output})`, its other option fields abstracted away as `extra`), or a
send-options value (`rpc.sendOpts({input})`). -/
inductive ArgVal where
  | emptyObj : ArgVal
  | plain : JsValue → ArgVal
  | callOpts : RpcModule → Option SerdeImpl → Option SerdeImpl → List (String × JsValue) → ArgVal
  | sendOpts : RpcModule → Option SerdeImpl → List (String × JsValue) → ArgVal
deriving Repr

/-- The `instanceof` type guards `isOpts` / `isSendOpts` /
`isIngressOpts` / `isIngressSendOpts` of client-proxy.ts, determined by the
rpc module and options kind the handler was built for. -/
def optsGuard (m : RpcModule) (k : OptsKind) : ArgVal → Bool
  | ArgVal.callOpts m₁ _ _ _ => k = OptsKind.callK && m₁ = m
  | ArgVal.sendOpts m₁ _ _ => k = OptsKind.sendK && m₁ = m
  | _ => false

/-- Merge the configured codec into an existing options value, as in
`rpcModule.opts({ ...existingOpts, input: existingOpts.input || serde,
output: existingOpts.output || serde })` (call) or `rpcModule.sendOpts({
...existingOpts, input: existingOpts.input || serde })` (send): a set
field survives (a codec object is always truthy), an unset field receives
the configured codec, and the remaining option fields are spread through. -/
def mergeOpts (m : RpcModule) (_k : OptsKind) (serde : SerdeImpl) : ArgVal → ArgVal
  | ArgVal.callOpts _ input output extra =>
      ArgVal.callOpts m (some (input.getD serde)) (some (output.getD serde)) extra
  | ArgVal.sendOpts _ input extra =>
      ArgVal.sendOpts m (some (input.getD serde)) extra
  | v => v

/-- A freshly constructed options value carrying the configured codec:
`rpcModule.opts({ input: serde, output: serde })` or
`rpcModule.sendOpts({ input: serde })`. -/
def freshOpts (m : RpcModule) (k : OptsKind) (serde : SerdeImpl) : ArgVal :=
  match k with
  | OptsKind.callK => ArgVal.callOpts m (some serde) (some serde) []
  | OptsKind.sendK => ArgVal.sendOpts m (some serde) []

/-- Model of the handler returned by `createArgsHandler` of
src/primitives/client-proxy.ts (lines 56-98): empty argument lists get
`[{}, opts]`; a trailing runtime-native options value (recognised by the
type guard) is replaced by the merge of the configured codec into its
unset fields; otherwise fresh options are appended after the arguments. -/
def createArgsHandlerM (m : RpcModule) (k : OptsKind)
    (args : List ArgVal) (serde : SerdeImpl) : List ArgVal :=
  if args.isEmpty then
    [ArgVal.emptyObj, freshOpts m k serde]
  else
    match args.getLast? with
    | some lastArg =>
      if optsGuard m k lastArg then
        args.dropLast ++ [mergeOpts m k serde lastArg]
      else
        args ++ [freshOpts m k serde]
    | none => args ++ [freshOpts m k serde]

/-- `handleCallArgs` of client-proxy.ts. -/
def handleCallArgs (args : List ArgVal) (serde : SerdeImpl) : List ArgVal :=
  createArgsHandlerM RpcModule.sdk OptsKind.callK args serde

/-- `handleSendArgs` of client-proxy.ts. -/
def handleSendArgs (args : List ArgVal) (serde : SerdeImpl) : List ArgVal :=
  createArgsHandlerM RpcModule.sdk OptsKind.sendK args serde

/-- `handleIngressCallArgs` of client-proxy.ts. -/
def handleIngressCallArgs (args : List ArgVal) (serde : SerdeImpl) : List ArgVal :=
  createArgsHandlerM RpcModule.ingress OptsKind.callK args serde

/-- `handleIngressSendArgs` of client-proxy.ts. -/
def handleIngressSendArgs (args : List ArgVal) (serde : SerdeImpl) : List ArgVal :=
  createArgsHandlerM RpcModule.ingress OptsKind.sendK args serde

/-- A property of a raw client object: either a non-function value or a
method. -/
inductive ClientMember where
  | prim : JsValue → ClientMember
  | method : (List ArgVal → JsValue) → ClientMember

/-- A raw client object: property name to member. -/
def RawClient : Type := List (String × ClientMember)

/-- Model of the proxy `get` trap of `createClientWrapper`
(src/primitives/client-proxy.ts lines 134-164): read the property off the
target; a non-function value is returned as-is (an absent property reads
as `undefined`, which is not a function, and is likewise returned as-is);
a function is replaced by a wrapper that first runs the argument handler
and then applies the original with the processed arguments. -/
def proxyGet (client : RawClient) (serde : SerdeImpl)
    (argsHandler : List ArgVal → SerdeImpl → List ArgVal)
    (prop : String) : Option ClientMember :=
  match client.lookup prop with
  | none => none
  | some (ClientMember.prim v) => some (ClientMember.prim v)
  | some (ClientMember.method f) =>
      some (ClientMember.method (fun args => f (argsHandler args serde)))

/-! ## Standalone (ingress) clients

src/unnamed/part_008 is the standalone-clients module: it opens one lazy
module-level connection to `process.env.RESTATE_URL || "http://localhost:8080"`
and builds ingress clients on it. -/

/-- The default of `const restateUrl = process.env.RESTATE_URL ||
"http://localhost:8080"`. -/
def defaultRestateUrl : String := "http://localhost:8080"

/-- `restateUrl` as a function of the environment variable. -/
def mkRestateUrl (envUrl : Option String) : String :=
  envUrl.getD defaultRestateUrl

/-- A connection object returned by `restate.connect({ url })`. -/
structure IngressConn where
  url : String
deriving DecidableEq, Repr

/-- `getRestateClient` of the standalone-clients module: connect (or reuse
the memoized connection) to the module-level URL.  Memoization does not
change the URL, so the connection is a function of the environment. -/
def getRestateClientM (envUrl : Option String) : IngressConn :=
  ⟨mkRestateUrl envUrl⟩

/-- A wrapped ingress client: the connection it was built on, which ingress
client-construction method produced the raw client, its target and key,
the value that landed in the codec slot of the wrapper, and the argument
handler the codec-injecting proxy uses. -/
structure IngressClientRecord where
  connUrl : String
  kind : TargetKind
  target : JsValue
  key : Option String
  serdeSlot : JsValue
  argsHandler : List ArgVal → SerdeImpl → List ArgVal

/-- `createServiceClient(service, serde)` of the standalone-clients module
(src/unnamed/part_008 lines 44-52): raw client from
`getRestateClient().serviceClient(service)`, wrapped by
`wrapIngressClient`, whose argument handler is `handleIngressCallArgs`. -/
def standaloneServiceClientM (envUrl : Option String)
    (service : JsValue) (serde : JsValue) : IngressClientRecord :=
  { connUrl := (getRestateClientM envUrl).url
  , kind := TargetKind.serviceCall
  , target := service
  , key := none
  , serdeSlot := serde
  , argsHandler := handleIngressCallArgs }

/-- `createWorkflowClient(workflow, key, serde)` of the standalone-clients
module (src/unnamed/part_008 lines 113-122): raw client from
`ingress.workflowClient(workflow, key)`, wrapped by
`wrapIngressWorkflowClient`, whose argument handler is
`handleIngressCallArgs` (the call-options handler). -/
def standaloneWorkflowClientM (envUrl : Option String)
    (workflow : JsValue) (key : String) (serde : JsValue) : IngressClientRecord :=
  { connUrl := (getRestateClientM envUrl).url
  , kind := TargetKind.workflowCall
  , target := workflow
  , key := some key
  , serdeSlot := serde
  , argsHandler := handleIngressCallArgs }

/-- `createWorkflowSendClient(workflow, key, serde)` of the
standalone-clients module (src/unnamed/part_008 lines 132-142): the body
is the same as `createWorkflowClient` - it also obtains
`ingress.workflowClient(workflow, key)` and wraps it with
`wrapIngressWorkflowClient`. -/
def standaloneWorkflowSendClientM (envUrl : Option String)
    (workflow : JsValue) (key : String) (serde : JsValue) : IngressClientRecord :=
  { connUrl := (getRestateClientM envUrl).url
  , kind := TargetKind.workflowCall
  , target := workflow
  , key := some key
  , serdeSlot := serde
  , argsHandler := handleIngressCallArgs }

/-- The `service` factory method of `standaloneClients(baseUrl)` in
`createRestateFactory` (src/primitives/index.ts lines 119-132): it calls
`createStandaloneServiceClient(baseUrl, service, serde)`, but the
standalone-clients function it resolves to takes only `(service, serde)`.
Under JavaScript call semantics the base URL binds to the `service`
parameter, the service definition binds to the `serde` parameter, and the
configured codec argument is dropped. -/
def facadeStandaloneServiceM (envUrl : Option String) (baseUrl : String)
    (configSerde : JsValue) (service : JsValue) : IngressClientRecord :=
  let _ := configSerde
  standaloneServiceClientM envUrl (JsValue.vstr baseUrl) service

/-! ## Helper lemmas -/

/-- Looking a key up in an association list mapped by a key-preserving
function gives the mapped original value. -/
theorem lookup_map_entry {α β : Type} (f : String → α → β)
    (l : List (String × α)) (k : String) :
    (l.map (fun p => (p.1, f p.1 p.2))).lookup k = (l.lookup k).map (f k) := by
  induction l with
  | nil => rfl
  | cons p t ih =>
    obtain ⟨k₁, v⟩ := p
    by_cases h : k = k₁
    · subst h
      simp [List.lookup]
    · have hb : (k == k₁) = false := beq_false_of_ne h
      simp [List.lookup, hb, ih]

/-- A `setEntry` write is visible to a subsequent lookup of the same key. -/
theorem lookup_setEntry (k : String) (v : JsValue) (l : List (String × JsValue)) :
    (setEntry k v l).lookup k = some v := by
  induction l with
  | nil => simp [setEntry, List.lookup]
  | cons p t ih =>
    obtain ⟨k₁, v₁⟩ := p
    by_cases h : k₁ = k
    · subst h
      simp [setEntry, List.lookup]
    · have hb : (k == k₁) = false := beq_false_of_ne (fun hh => h hh.symm)
      simp [setEntry, h, List.lookup, hb, ih]

/-- After filtering a key out of an association list, looking it up fails. -/
theorem lookup_filter_ne (k : String) (l : List (String × JsValue)) :
    (l.filter (fun p => p.1 ≠ k)).lookup k = none := by
  induction l with
  | nil => rfl
  | cons p t ih =>
    obtain ⟨k₁, v₁⟩ := p
    rw [List.filter_cons]
    by_cases h : k₁ = k
    · subst h
      simpa using ih
    · have hb : (k == k₁) = false := beq_false_of_ne (fun hh => h hh.symm)
      simpa [h, List.lookup, hb] using ih

/-! ## Claim C1: client-type / handler-map consistency -/

/-- A concrete one-handler workflow map used to exhibit the `getStatus`
discrepancy of the workflow branch of `ClientType`. -/
def c1WorkflowMap : List (String × HandlerSig) :=
  [("run", { ctx := Ty.ctxTy "WorkflowHandlerContext", args := [Ty.strTy], ret := Ty.promise Ty.numTy })]

/-- C1, counterexample: for the workflow adapter the derived client type is
not structurally identical to the context-stripped handler map - the
workflow branch of `ClientType` (src/primitives/types.ts lines 138-141)
adds a `getStatus(): Promise<any>` member that no declared handler has. -/
theorem claim_C1_counterexample :
    clientTypeTy (workflowAdapterSig "W" c1WorkflowMap) ≠ handlersToClientTy c1WorkflowMap := by
  decide

/-- C1 (amended): for every handler map `H`, the client type derived by
`ClientType` from the Definition type produced by the service or object
registration adapter is structurally identical to
`{ [k in keys(H)]: ToClientMethod(H[k]) }` - each client method has
exactly the domain-argument types and return type of the declared handler
with the leading context parameter removed; for the workflow adapter the
derived client type is that same stripped map extended with one extra
`getStatus(): Promise<any>` member (every declared handler's method still
matches the stripped declaration exactly). -/
theorem claim_C1_amended (name : String) (H : List (String × HandlerSig)) :
    clientTypeTy (serviceAdapterSig name H) = handlersToClientTy H ∧
    clientTypeTy (objectAdapterSig name H) = handlersToClientTy H ∧
    clientTypeTy (workflowAdapterSig name H)
      = handlersToClientTy H ++ [("getStatus", getStatusSig)] := by
  refine ⟨?_, ?_, ?_⟩ <;>
    simp [clientTypeTy, serviceAdapterSig, objectAdapterSig, workflowAdapterSig,
      handlersToClientTy, transformHandlersTy, List.map_map, Function.comp,
      extractHandlerSignature, transformHandlerTy]

/-! ## Claim C2: the wrapped handler is a transparent pass-through -/

/-- A concrete declared handler used by the C2 witness. -/
def c2Handler : DeclaredHandler :=
  fun _ctx args => Except.ok (JsValue.varr args)

/-- A concrete rejecting declared handler used by the C2 witness. -/
def c2FailingHandler : DeclaredHandler :=
  fun _ctx _args => Except.error (JsValue.vstr "boom")

/-- C2: for every handler map, every handler name `k` registered by the
service or object adapter, and every invocation, the wrapped handler
calls the declared handler with a Built Context constructed from the raw
context and the configured codec, passes the domain arguments unchanged,
and returns exactly the declared handler's fulfilment or rejection;
the input/output codec registered for the handler is the configured codec.
The Built Context is recomputed from the raw context on each invocation
(the wrapped function's result is a function of the current raw context
and arguments only), so nothing is cached across invocations. -/
theorem claim_C2 (name : String) (handlers : List (String × DeclaredHandler))
    (serde : SerdeImpl) (k : String) (h : DeclaredHandler)
    (rawCtx : RawCtxState) (args : List JsValue)
    (hk : handlers.lookup k = some h) :
    (∃ reg : RegisteredHandler,
      (createRestateServiceM name handlers serde).handlers.lookup k = some reg ∧
      reg.input = serde ∧ reg.output = serde ∧
      reg.fn rawCtx args = h (mkServiceHandlerContext rawCtx serde) args ∧
      (∀ v, h (mkServiceHandlerContext rawCtx serde) args = Except.ok v →
        reg.fn rawCtx args = Except.ok v) ∧
      (∀ e, h (mkServiceHandlerContext rawCtx serde) args = Except.error e →
        reg.fn rawCtx args = Except.error e)) ∧
    (∃ reg : RegisteredHandler,
      (typedObjectM name handlers serde).handlers.lookup k = some reg ∧
      reg.input = serde ∧ reg.output = serde ∧
      reg.fn rawCtx args = h (mkObjectHandlerContext rawCtx serde) args ∧
      (∀ v, h (mkObjectHandlerContext rawCtx serde) args = Except.ok v →
        reg.fn rawCtx args = Except.ok v) ∧
      (∀ e, h (mkObjectHandlerContext rawCtx serde) args = Except.error e →
        reg.fn rawCtx args = Except.error e)) := by
  constructor
  · refine ⟨⟨serde, serde, fun rawCtx args => h (mkServiceHandlerContext rawCtx serde) args⟩,
      ?_, rfl, rfl, rfl, fun v hv => hv, fun e he => he⟩
    have := lookup_map_entry
      (fun _ (hdl : DeclaredHandler) =>
        (⟨serde, serde, fun rawCtx args => hdl (mkServiceHandlerContext rawCtx serde) args⟩ :
          RegisteredHandler)) handlers k
    simpa [createRestateServiceM, hk] using this
  · refine ⟨⟨serde, serde, fun rawCtx args => h (mkObjectHandlerContext rawCtx serde) args⟩,
      ?_, rfl, rfl, rfl, fun v hv => hv, fun e he => he⟩
    have := lookup_map_entry
      (fun _ (hdl : DeclaredHandler) =>
        (⟨serde, serde, fun rawCtx args => hdl (mkObjectHandlerContext rawCtx serde) args⟩ :
          RegisteredHandler)) handlers k
    simpa [typedObjectM, hk] using this

/-- C2, witness: the theorem applied to a concrete two-handler map, a
concrete raw context and concrete arguments. -/
theorem claim_C2_witness :
    (∃ reg : RegisteredHandler,
      (createRestateServiceM "Svc" [("echo", c2Handler), ("fail", c2FailingHandler)]
          SerdeImpl.superjsonBuiltin).handlers.lookup "echo" = some reg ∧
      reg.input = SerdeImpl.superjsonBuiltin ∧ reg.output = SerdeImpl.superjsonBuiltin ∧
      reg.fn ⟨[]⟩ [JsValue.vnum 3]
        = c2Handler (mkServiceHandlerContext ⟨[]⟩ SerdeImpl.superjsonBuiltin) [JsValue.vnum 3] ∧
      (∀ v, c2Handler (mkServiceHandlerContext ⟨[]⟩ SerdeImpl.superjsonBuiltin) [JsValue.vnum 3]
          = Except.ok v → reg.fn ⟨[]⟩ [JsValue.vnum 3] = Except.ok v) ∧
      (∀ e, c2Handler (mkServiceHandlerContext ⟨[]⟩ SerdeImpl.superjsonBuiltin) [JsValue.vnum 3]
          = Except.error e → reg.fn ⟨[]⟩ [JsValue.vnum 3] = Except.error e)) ∧
    (∃ reg : RegisteredHandler,
      (typedObjectM "Svc" [("echo", c2Handler), ("fail", c2FailingHandler)]
          SerdeImpl.superjsonBuiltin).handlers.lookup "echo" = some reg ∧
      reg.input = SerdeImpl.superjsonBuiltin ∧ reg.output = SerdeImpl.superjsonBuiltin ∧
      reg.fn ⟨[]⟩ [JsValue.vnum 3]
        = c2Handler (mkObjectHandlerContext ⟨[]⟩ SerdeImpl.superjsonBuiltin) [JsValue.vnum 3] ∧
      (∀ v, c2Handler (mkObjectHandlerContext ⟨[]⟩ SerdeImpl.superjsonBuiltin) [JsValue.vnum 3]
          = Except.ok v → reg.fn ⟨[]⟩ [JsValue.vnum 3] = Except.ok v) ∧
      (∀ e, c2Handler (mkObjectHandlerContext ⟨[]⟩ SerdeImpl.superjsonBuiltin) [JsValue.vnum 3]
          = Except.error e → reg.fn ⟨[]⟩ [JsValue.vnum 3] = Except.error e)) :=
  claim_C2 "Svc" [("echo", c2Handler), ("fail", c2FailingHandler)]
    SerdeImpl.superjsonBuiltin "echo" c2Handler ⟨[]⟩ [JsValue.vnum 3] rfl

/-! ## Claim C3: codec injection into client call arguments -/

/-- A concrete configured codec. -/
def serde0 : SerdeImpl := SerdeImpl.custom 0

/-- A concrete explicit per-call codec, distinct from the configured one. -/
def serde1 : SerdeImpl := SerdeImpl.custom 1

/-- C3, counterexample: for a call with zero domain arguments the raw
method does not receive the injected options value as its sole argument -
the wrapper returns `[{}, opts]` (client-proxy.ts lines 63-70), so the raw
call receives two arguments, an empty-object placeholder followed by the
options. -/
theorem claim_C3_counterexample :
    handleCallArgs [] serde0
      = [ArgVal.emptyObj, ArgVal.callOpts RpcModule.sdk (some serde0) (some serde0) []] ∧
    (handleCallArgs [] serde0).length ≠ 1 :=
  ⟨rfl, by decide⟩

/-- C3 (amended): for every wrapped client method call, if the call
supplies zero domain arguments the underlying raw method receives exactly
two arguments - an empty-object placeholder followed by the injected
options value carrying the configured codec; if the trailing argument is
already a runtime-native call-options value, the configured codec is
merged only into its unset input/output fields (an explicitly set per-call
codec is never overridden, and the other option fields survive); otherwise
a freshly constructed options value carrying the configured codec is
appended after the caller's arguments. -/
theorem claim_C3_amended :
    (∀ s : SerdeImpl,
      handleCallArgs [] s
        = [ArgVal.emptyObj, ArgVal.callOpts RpcModule.sdk (some s) (some s) []]) ∧
    (∀ (args : List ArgVal) (s : SerdeImpl) (input output : Option SerdeImpl)
        (extra : List (String × JsValue)),
      args ≠ [] →
      args.getLast? = some (ArgVal.callOpts RpcModule.sdk input output extra) →
      handleCallArgs args s
        = args.dropLast
            ++ [ArgVal.callOpts RpcModule.sdk (some (input.getD s)) (some (output.getD s)) extra]) ∧
    (∀ (args : List ArgVal) (s : SerdeImpl) (lastArg : ArgVal),
      args ≠ [] →
      args.getLast? = some lastArg →
      optsGuard RpcModule.sdk OptsKind.callK lastArg = false →
      handleCallArgs args s
        = args ++ [ArgVal.callOpts RpcModule.sdk (some s) (some s) []]) := by
  refine ⟨fun s => rfl, ?_, ?_⟩
  · intro args s input output extra hne hlast
    have hempty : args.isEmpty = false := by
      cases args with
      | nil => exact absurd rfl hne
      | cons a t => rfl
    simp [handleCallArgs, createArgsHandlerM, hempty, hlast, optsGuard, mergeOpts]
  · intro args s lastArg hne hlast hguard
    have hempty : args.isEmpty = false := by
      cases args with
      | nil => exact absurd rfl hne
      | cons a t => rfl
    simp [handleCallArgs, createArgsHandlerM, hempty, hlast, hguard, freshOpts]

/-- C3, witness: the merge branch applied to a call whose trailing options
set an explicit input codec and leave output unset, and the append branch
applied to a call with one domain argument. -/
theorem claim_C3_witness :
    (handleCallArgs [ArgVal.plain (JsValue.vnum 3),
        ArgVal.callOpts RpcModule.sdk (some serde1) none []] serde0
      = [ArgVal.plain (JsValue.vnum 3),
         ArgVal.callOpts RpcModule.sdk (some serde1) (some serde0) []]) ∧
    (handleCallArgs [ArgVal.plain (JsValue.vnum 3)] serde0
      = [ArgVal.plain (JsValue.vnum 3),
         ArgVal.callOpts RpcModule.sdk (some serde0) (some serde0) []]) := by
  constructor
  · exact claim_C3_amended.2.1
      [ArgVal.plain (JsValue.vnum 3), ArgVal.callOpts RpcModule.sdk (some serde1) none []]
      serde0 (some serde1) none [] (by simp) rfl
  · exact claim_C3_amended.2.2 [ArgVal.plain (JsValue.vnum 3)] serde0
      (ArgVal.plain (JsValue.vnum 3)) (by simp) rfl rfl

/-! ## Claim C4: workflow run/shared registration kinds -/

/-- Counting the mapped shared handlers: none is registered with the
workflow kind and each one is registered with the shared kind. -/
theorem countP_shared_map (serde : SerdeImpl) (l : List (String × DeclaredHandler)) :
    (l.map (fun p =>
      (p.1,
       ({ kind := WfHandlerKind.sharedKind
        , input := serde
        , output := serde
        , fn := fun rawCtx args => p.2 (mkWorkflowSharedContext rawCtx serde) args } :
         RegisteredWfHandler)))).countP
        (fun p => decide (p.2.kind = WfHandlerKind.workflowKind)) = 0 ∧
    (l.map (fun p =>
      (p.1,
       ({ kind := WfHandlerKind.sharedKind
        , input := serde
        , output := serde
        , fn := fun rawCtx args => p.2 (mkWorkflowSharedContext rawCtx serde) args } :
         RegisteredWfHandler)))).countP
        (fun p => decide (p.2.kind = WfHandlerKind.sharedKind)) = l.length := by
  constructor <;> simp [List.countP_map, Function.comp, List.countP_eq_length]

/-- C4: for every workflow handler map containing a `run` handler plus any
other handlers, the adapter registers exactly the `run` handler through the
runtime's workflow handler kind, wrapped with the read/write run context,
and registers every other handler through the runtime's shared handler
kind, wrapped with the read-only shared context; consequently a map
`{run, a, b}` yields exactly one workflow-kind handler and exactly two
shared-kind handlers. -/
theorem claim_C4 (name : String) (input : WorkflowInput) (serde : SerdeImpl) :
    ((createRestateWorkflowM name input serde).handlers.countP
        (fun p => decide (p.2.kind = WfHandlerKind.workflowKind))) = 1 ∧
    ((createRestateWorkflowM name input serde).handlers.countP
        (fun p => decide (p.2.kind = WfHandlerKind.sharedKind))) = input.shared.length ∧
    (createRestateWorkflowM name input serde).handlers
      = ("run",
          { kind := WfHandlerKind.workflowKind
          , input := serde
          , output := serde
          , fn := fun rawCtx args => input.run (mkWorkflowRunContext rawCtx serde) args })
        :: input.shared.map (fun p =>
          (p.1,
           { kind := WfHandlerKind.sharedKind
           , input := serde
           , output := serde
           , fn := fun rawCtx args => p.2 (mkWorkflowSharedContext rawCtx serde) args })) ∧
    (∀ hr ha hb : DeclaredHandler,
      ((createRestateWorkflowM name ⟨hr, [("a", ha), ("b", hb)]⟩ serde).handlers.countP
          (fun p => decide (p.2.kind = WfHandlerKind.workflowKind))) = 1 ∧
      ((createRestateWorkflowM name ⟨hr, [("a", ha), ("b", hb)]⟩ serde).handlers.countP
          (fun p => decide (p.2.kind = WfHandlerKind.sharedKind))) = 2) := by
  refine ⟨?_, ?_, rfl, ?_⟩
  · have h := (countP_shared_map serde input.shared).1
    simp only [createRestateWorkflowM, List.countP_cons]
    simp [h]
  · have h := (countP_shared_map serde input.shared).2
    simp only [createRestateWorkflowM, List.countP_cons]
    simp [h]
  · intro hr ha hb
    exact ⟨rfl, rfl⟩

/-! ## Claim C5: state-capability presence and absence -/

/-- C5: for every raw context and configured codec, the Built Context of an
object handler and of a workflow `run` handler contains `setState` and
`clearState` members that delegate to the runtime's `ctx.set` and
`ctx.clear` (so a written value is visible to the runtime state read, and
a cleared key reads as absent), while the Built Context of a workflow
shared handler contains no `setState` and no `clearState` member at all -
the names are absent from the constructed object, not throwing stubs. -/
theorem claim_C5 (c : RawCtxState) (serde : SerdeImpl) :
    ((mkWorkflowSharedContext c serde).lookup "setState" = none) ∧
    ((mkWorkflowSharedContext c serde).lookup "clearState" = none) ∧
    ((mkObjectHandlerContext c serde).lookup "setState"
        = some (Capability.setSt (fun key value _opts => ctxSet c key value))) ∧
    ((mkObjectHandlerContext c serde).lookup "clearState"
        = some (Capability.clearSt (fun key => ctxClear c key))) ∧
    ((mkWorkflowRunContext c serde).lookup "setState"
        = some (Capability.setSt (fun key value _opts => ctxSet c key value))) ∧
    ((mkWorkflowRunContext c serde).lookup "clearState"
        = some (Capability.clearSt (fun key => ctxClear c key))) ∧
    (∀ (k : String) (v : JsValue), ctxGet (ctxSet c k v) k = some v) ∧
    (∀ k : String, ctxGet (ctxClear c k) k = none) := by
  refine ⟨rfl, rfl, rfl, rfl, rfl, rfl, ?_, ?_⟩
  · intro k v
    exact lookup_setEntry k v c.state
  · intro k
    exact lookup_filter_ne k c.state

/-! ## Claim C6: codec round-trip fidelity of SuperJsonSerde -/

/-- A representative nested plain value (primitives, array, object). -/
def c6PlainValue : JsValue :=
  JsValue.vobj
    [ ("a", JsValue.varr [JsValue.vnum 1, JsValue.vnull, JsValue.vstr "x"])
    , ("b", JsValue.vbool true)
    , ("c", JsValue.vobj [("d", JsValue.vnum (-2))]) ]

/-- C6: evaluation of `SuperJsonSerde` (src/primitives/serde.ts) at the
rich values its own documentation (src/unnamed/part_008 lines 29-35)
claims to support: a plain nested value round-trips, but a Date comes back
as its ISO string rather than the Date, serializing a BigInt throws, and a
top-level `undefined` fails to parse back - so
`deserialize(serialize(v)) = v` fails for every rich type the
documentation names, because the class uses plain `JSON.stringify` /
`JSON.parse` instead of a superjson encoding. -/
theorem claim_C6_evaluation :
    superJsonRoundTrip c6PlainValue = Except.ok c6PlainValue ∧
    superJsonRoundTrip (JsValue.vdate 0)
      = Except.ok (JsValue.vstr (dateToISOString 0)) ∧
    superJsonRoundTrip (JsValue.vdate 0) ≠ Except.ok (JsValue.vdate 0) ∧
    superJsonRoundTrip (JsValue.vbigint 1)
      = Except.error "TypeError: Do not know how to serialize a BigInt" ∧
    superJsonRoundTrip JsValue.vundef
      = Except.error "SyntaxError: JSON.parse on the text undefined" := by
  refine ⟨rfl, rfl, ?_, rfl, rfl⟩
  intro h
  simp [superJsonRoundTrip, jsonStringifyParse] at h

/-! ## Claim C7: runStep delegation and codec resolution -/

/-- A concrete durable-step action. -/
def action0 : RunAction := fun _ => Except.ok JsValue.vnull

/-- C7, counterexample: inside a service definition configured with the
codec `custom 0`, calling `runStep` with no options delegates a run whose
codec is the built-in `superjsonserde`, not the configured codec - the
`runStep` capability of the service context delegates to `runCall`, which
never consults the configured codec. -/
theorem claim_C7_counterexample :
    ((mkServiceHandlerContext ⟨[]⟩ (SerdeImpl.custom 0)).lookup "runStep"
      = some (Capability.runSt (fun name action opts => runCall name action opts))) ∧
    (runCall "step" action0 none).serde = some SerdeImpl.superjsonBuiltin ∧
    (runCall "step" action0 none).serde ≠ some (SerdeImpl.custom 0) :=
  ⟨rfl, rfl, by decide⟩

/-- C7 (amended): `runStep(name, action, opts)` delegates to the runtime's
durable-step primitive with the step name and action forwarded verbatim
and no uniqueness enforcement.  The codec passed is `resolveSerde(opts)`:
the override supplied in `opts` when it is a codec object, the runtime
default when it is the string "json", and the built-in superjson codec
when `opts` is absent, carries no codec, or is the string "superjson" -
never the configured codec of the enclosing definition.  On the object
context the caller's options are additionally dropped by an
argument-arity mismatch (typed-object.ts passes five arguments to the
four-parameter `run`), so the built-in superjson codec is always passed
there. -/
theorem claim_C7_amended (name : String) (action : RunAction)
    (opts : Option BaseOptsV) (cfg : SerdeImpl) :
    (runCall name action opts).name = name ∧
    (runCall name action opts).action = action ∧
    (runCall name action opts).serde = resolveSerde opts ∧
    (∀ s : SerdeImpl,
      resolveSerde (some ⟨some (SerdeOption.impl s)⟩) = some s) ∧
    resolveSerde (some ⟨some SerdeOption.jsonStr⟩) = none ∧
    resolveSerde (some ⟨some SerdeOption.superjsonStr⟩) = some SerdeImpl.superjsonBuiltin ∧
    resolveSerde none = some SerdeImpl.superjsonBuiltin ∧
    resolveSerde (some ⟨none⟩) = some SerdeImpl.superjsonBuiltin ∧
    (objectRunStep cfg name action opts).name = name ∧
    (objectRunStep cfg name action opts).action = action ∧
    (objectRunStep cfg name action opts).serde = some SerdeImpl.superjsonBuiltin :=
  ⟨rfl, rfl, rfl, fun _ => rfl, rfl, rfl, rfl, rfl, rfl, rfl, rfl⟩

/-! ## Claim C8: standalone clients and the base URL -/

/-- A concrete service definition value. -/
def svcDef0 : JsValue := JsValue.vobj [("name", JsValue.vstr "MyService")]

/-- A concrete configured codec value for the standalone path. -/
def cfgSerde0 : JsValue := JsValue.vobj [("contentType", JsValue.vstr "application/json")]

/-- C8: evaluation of `standaloneClients("http://example.com:9090").service`
with no `RESTATE_URL` in the environment: the wrapped client's connection
goes to the env-derived default `http://localhost:8080`, not to the
supplied base URL; the base URL instead lands in the service-definition
parameter of the two-parameter standalone client function, and the
definition lands in its codec parameter. -/
theorem claim_C8_evaluation :
    (facadeStandaloneServiceM none "http://example.com:9090" cfgSerde0 svcDef0).connUrl
      = "http://localhost:8080" ∧
    (facadeStandaloneServiceM none "http://example.com:9090" cfgSerde0 svcDef0).connUrl
      ≠ "http://example.com:9090" ∧
    (facadeStandaloneServiceM none "http://example.com:9090" cfgSerde0 svcDef0).target
      = JsValue.vstr "http://example.com:9090" ∧
    (facadeStandaloneServiceM none "http://example.com:9090" cfgSerde0 svcDef0).serdeSlot
      = svcDef0 := by
  refine ⟨rfl, ?_, rfl, rfl⟩
  decide

/-! ## Claim C9: standalone workflowSend equals standalone workflow client -/

/-- C9: for every environment, workflow definition, key and codec, the
standalone `createWorkflowSendClient` returns exactly the client that
`createWorkflowClient` returns: both obtain the runtime's regular
(non-send) `workflowClient` ingress client and wrap it with the
call-options argument handler `handleIngressCallArgs` - which genuinely
differs from the send-options handler, as their outputs on an empty
argument list show. -/
theorem claim_C9 (envUrl : Option String) (workflow : JsValue) (key : String)
    (serde : JsValue) :
    standaloneWorkflowSendClientM envUrl workflow key serde
      = standaloneWorkflowClientM envUrl workflow key serde ∧
    (standaloneWorkflowSendClientM envUrl workflow key serde).kind
      = TargetKind.workflowCall ∧
    (standaloneWorkflowSendClientM envUrl workflow key serde).argsHandler
      = handleIngressCallArgs ∧
    handleIngressCallArgs [] serde0 ≠ handleIngressSendArgs [] serde0 := by
  refine ⟨rfl, rfl, rfl, ?_⟩
  intro h
  simp [handleIngressCallArgs, handleIngressSendArgs, createArgsHandlerM, freshOpts] at h

/-! ## Claim C10: non-function properties pass through the proxy untouched -/

/-- C10: for every wrapped client and property name, reading a property
whose underlying value is not a function yields that value completely
unchanged (and an absent property stays absent); only function-valued
properties are replaced by codec-injecting wrappers. -/
theorem claim_C10 (client : RawClient) (serde : SerdeImpl)
    (argsHandler : List ArgVal → SerdeImpl → List ArgVal) (prop : String) :
    (∀ v : JsValue, client.lookup prop = some (ClientMember.prim v) →
      proxyGet client serde argsHandler prop = some (ClientMember.prim v)) ∧
    (client.lookup prop = none → proxyGet client serde argsHandler prop = none) := by
  constructor
  · intro v hv
    simp [proxyGet, hv]
  · intro hn
    simp [proxyGet, hn]

/-- A concrete raw client with one non-function property and one method. -/
def c10Client : RawClient :=
  [ ("status", ClientMember.prim (JsValue.vstr "ready"))
  , ("greet", ClientMember.method (fun _ => JsValue.vstr "hi")) ]

/-- C10, witness: the theorem applied to a concrete client at a concrete
non-function property. -/
theorem claim_C10_witness :
    proxyGet c10Client serde0 handleCallArgs "status"
      = some (ClientMember.prim (JsValue.vstr "ready")) :=
  (claim_C10 c10Client serde0 handleCallArgs "status").1 (JsValue.vstr "ready") rfl
